import Mathlib

/-!
Verification of the lexical retrieval core of
`src/smolagent_ag/retrievers_comparison/compare_bm25_tfidf.py`.

Modelling conventions:
* Python strings are Lean `String`s; tokens (the results of `str.split`) are
  `String`s as well.
* Python `float` arithmetic is modelled over `ℝ`; `math.log` is `Real.log`
  and `math.sqrt` is `Real.sqrt`.
* Python raises `ZeroDivisionError` on division by zero.  The two places in
  `calculate_bm25` where a denominator can be zero (the average-length
  division on an empty collection, and the per-term BM25 denominator) are
  modelled by returning `none`; everywhere else denominators are provably
  nonzero, or the division is guarded in the source itself.
* `list.sort(key=..., reverse=True)` is a stable sort by descending score.
  A stable sort is uniquely determined by the key order, so it is modelled
  by a stable insertion sort (`sortDesc`).
-/

namespace RetrievalCore

/-- A token: one word produced by `preprocess`. -/
abbrev Token := String

/-- The character class kept by `re.sub(r"[^\w\s]", "", text)`: a character
survives iff it matches `\w` (word character: alphanumeric or underscore)
or `\s` (whitespace).  We model the ASCII fragment of Python's character
classes. -/
def keepChar (c : Char) : Bool := (c.isAlphanum || c == '_') || c.isWhitespace

/-- `str.split()` with no separator: split on runs of whitespace, dropping
empty chunks.  `acc` holds the (reversed) characters of the word currently
being scanned. -/
def splitWords : List Char → List Char → List (List Char)
  | [], acc => if acc = [] then [] else [acc.reverse]
  | c :: cs, acc =>
    if c.isWhitespace then
      if acc = [] then splitWords cs [] else acc.reverse :: splitWords cs []
    else splitWords cs (c :: acc)

/-- `preprocess` from the source: lower-case, strip characters outside
`\w`/`\s`, split on whitespace. -/
def preprocess (text : String) : List Token :=
  (splitWords ((text.data.map Char.toLower).filter keepChar) []).map String.mk

example : preprocess ("The quick  fox!") = ["the", "quick", "fox"] := by decide
example : preprocess ("") = [] := by decide
example : preprocess ("a_b") = ["a_b"] := by decide

/-! ## Collection statistics (shared by both scorers)

`doc_freq[term] = sum(1 for doc in processed_docs if term in doc)`, and
`avg_doc_length = sum(doc_lengths) / len(doc_lengths)` where
`doc_lengths = [len(doc) for doc in processed_docs]`. -/

/-- Document frequency of a term over the tokenized collection. -/
def docFreq (processed : List (List Token)) (t : Token) : ℕ :=
  processed.countP fun d => decide (t ∈ d)

/-- Average tokenized document length.  The source divides by
`len(doc_lengths)`; on an empty collection Python raises
`ZeroDivisionError`, which `calculate_bm25` surfaces (modelled there). -/
noncomputable def avgDocLen (processed : List (List Token)) : ℝ :=
  ((processed.map List.length).sum : ℝ) / ((processed.map List.length).length : ℝ)

/-! ## The ranking step

`scores.sort(key=lambda x: x[1], reverse=True)` — a stable sort by
descending score.  Stable sorting is uniquely determined by the key order,
so the Timsort of CPython and the insertion sort below agree: on a tie the
element that occurred earlier in the unsorted list stays first. -/

/-- Insert `x` before the first element whose score is `≤` the score of
`x`; all elements of the list occurred after `x` in the unsorted input. -/
noncomputable def insertScored (x : ℕ × ℝ) : List (ℕ × ℝ) → List (ℕ × ℝ)
  | [] => [x]
  | y :: ys => if y.2 ≤ x.2 then x :: y :: ys else y :: insertScored x ys

/-- Stable sort by descending score. -/
noncomputable def sortDesc : List (ℕ × ℝ) → List (ℕ × ℝ)
  | [] => []
  | x :: xs => insertScored x (sortDesc xs)

/-- The order in which ranked results are emitted: strictly greater score
first, ties broken by ascending document index. -/
def ScoreOrder (a b : ℕ × ℝ) : Prop := b.2 < a.2 ∨ (a.2 = b.2 ∧ a.1 < b.1)

/-! ## BM25 scorer (`calculate_bm25`) -/

/-- The BM25 IDF of a term:
`math.log((num_docs - doc_freq[term] + 0.5) / (doc_freq[term] + 0.5) + 1)`. -/
noncomputable def bm25IDF (N df : ℕ) : ℝ :=
  Real.log (((N : ℝ) - (df : ℝ) + 0.5) / ((df : ℝ) + 0.5) + 1)

/-- The BM25 term-frequency component:
`tf * (k1 + 1) / (tf + k1 * (1 - b + b * doc_len / avg_doc_length))`. -/
noncomputable def bm25TF (k1 b : ℝ) (tf len : ℕ) (avg : ℝ) : ℝ :=
  (tf : ℝ) * (k1 + 1) / ((tf : ℝ) + k1 * (1 - b + b * (len : ℝ) / avg))

/-- BM25 score of document `i`: the inner loop of `calculate_bm25`.  Each
occurrence of a query term contributes (duplicates are not de-duplicated);
a term is skipped unless it occurs in some document (`term in doc_freq`,
the keys of `doc_freq` being the set union of the tokenized documents). -/
noncomputable def bm25ScoreAt (processed : List (List Token)) (q : List Token)
    (k1 b : ℝ) (i : ℕ) : ℝ :=
  (q.map fun t =>
    if ∃ d ∈ processed, t ∈ d then
      bm25IDF processed.length (docFreq processed t) *
        bm25TF k1 b ((processed.getD i []).count t) (processed.getD i []).length
          (avgDocLen processed)
    else 0).sum

/-- The BM25 denominators Python actually divides by: the call raises
`ZeroDivisionError` iff for some scored document and some query term that
passes the vocabulary check, `tf + k1 * (1 - b + b * doc_len / avg)` is
zero.  (The division `doc_len / avg` is reached only when the vocabulary
is non-empty, in which case `avg > 0`.) -/
def bm25Crash (processed : List (List Token)) (q : List Token) (k1 b : ℝ) : Prop :=
  ∃ d ∈ processed, ∃ t ∈ q, (∃ d' ∈ processed, t ∈ d') ∧
    ((d.count t : ℝ) + k1 * (1 - b + b * (d.length : ℝ) / avgDocLen processed)) = 0

open Classical in
/-- `calculate_bm25`.  `none` models an uncaught `ZeroDivisionError`: on an
empty collection (`avg_doc_length = sum(...) / len(doc_lengths)`), or on a
vanishing per-term denominator.  Otherwise the `(index, score)` pairs are
sorted by descending score, stably, and returned. -/
noncomputable def calculate_bm25 (documents : List String) (query : String)
    (k1 b : ℝ) : Option (List (ℕ × ℝ)) :=
  if documents = [] then none
  else if bm25Crash (documents.map preprocess) (preprocess query) k1 b then none
  else some (sortDesc ((List.range documents.length).map fun i =>
    (i, bm25ScoreAt (documents.map preprocess) (preprocess query) k1 b i)))

/-! ## Manual TF-IDF scorer (`calculate_tf_idf_manual`) -/

/-- `idf.get(term, 0)`: the dictionary `idf` maps every term of the
vocabulary to `math.log(num_docs / df)`; terms outside the vocabulary
default to `0`. -/
noncomputable def idfOrZero (processed : List (List Token)) (t : Token) : ℝ :=
  if ∃ d ∈ processed, t ∈ d then
    Real.log ((processed.length : ℝ) / (docFreq processed t : ℝ))
  else 0

/-- One coordinate of a TF-IDF vector: `tf * idf.get(term, 0)`. -/
noncomputable def tfidfWeight (processed : List (List Token)) (l : List Token)
    (t : Token) : ℝ :=
  (l.count t : ℝ) * idfOrZero processed t

/-- The dot product over `common_terms`, the distinct terms present in both
the query and the document. -/
noncomputable def dotProd (processed : List (List Token)) (q d : List Token) : ℝ :=
  ((q.dedup.filter fun t => decide (t ∈ d)).map fun t =>
    tfidfWeight processed q t * tfidfWeight processed d t).sum

/-- Euclidean norm of a TF-IDF vector, summing over the distinct terms of
the token sequence (the keys of the sparse vector). -/
noncomputable def vecMag (processed : List (List Token)) (l : List Token) : ℝ :=
  Real.sqrt ((l.dedup.map fun t => tfidfWeight processed l t ^ 2).sum)

/-- Cosine similarity with the source's explicit zero-denominator guard:
`if query_mag > 0 and doc_mag > 0: ... else: similarity = 0`. -/
noncomputable def cosineSim (processed : List (List Token)) (q d : List Token) : ℝ :=
  if 0 < vecMag processed q ∧ 0 < vecMag processed d then
    dotProd processed q d / (vecMag processed q * vecMag processed d)
  else 0

/-- `calculate_tf_idf_manual`: cosine-similarity scores, ranked like BM25.
No division can crash here: `df ≥ 1` on vocabulary terms and the cosine
division is guarded, so the function is total (in particular it silently
returns `[]` on an empty collection). -/
noncomputable def calculate_tf_idf_manual (documents : List String)
    (query : String) : List (ℕ × ℝ) :=
  sortDesc ((List.range documents.length).map fun i =>
    (i, cosineSim (documents.map preprocess) (preprocess query)
      ((documents.map preprocess).getD i [])))

/-! ## Spec-side definitions

These follow the wording of the specification, to be compared with the
definitions above (which follow the source). -/

/-- The BM25 score of document `i` as §4.4 of the spec words it: the sum
over the query's token occurrences of `idf_bm25(t) × tf_component(t, d)`,
where `idf_bm25(t) = ln((N − df(t) + 0.5)/(df(t) + 0.5) + 1)` and
`tf_component(t,d) = tf(t,d)×(k1+1)/(tf(t,d) + k1×(1 − b + b×len(d)/avg_len))`,
query terms with `df(t) = 0` being skipped. -/
noncomputable def bm25SpecScore (documents : List String) (query : String)
    (k1 b : ℝ) (i : ℕ) : ℝ :=
  ((preprocess query).map fun t =>
    if docFreq (documents.map preprocess) t = 0 then 0
    else
      Real.log (((documents.length : ℝ) - (docFreq (documents.map preprocess) t : ℝ) + 0.5) /
          ((docFreq (documents.map preprocess) t : ℝ) + 0.5) + 1) *
        ((((documents.map preprocess).getD i []).count t : ℝ) * (k1 + 1) /
          ((((documents.map preprocess).getD i []).count t : ℝ) +
            k1 * (1 - b + b * (((documents.map preprocess).getD i []).length : ℝ) /
              avgDocLen (documents.map preprocess))))).sum

/-- The tokenizer as the (amended) spec words it, built from independent
library combinators: lower-case, keep only word characters (alphanumeric
or underscore) and whitespace, split at every whitespace character and
drop the empty chunks. -/
def tokenizerSpec (text : String) : List Token :=
  ((((text.data.map Char.toLower).filter keepChar).splitOnP Char.isWhitespace).filter
    fun w => decide (w ≠ [])).map String.mk

/-- The tokenizer as claim C7 words it: like `tokenizerSpec` but keeping
only alphanumeric and whitespace characters (no underscore). -/
def tokenizerClaimC7 (text : String) : List Token :=
  ((((text.data.map Char.toLower).filter fun c => c.isAlphanum || c.isWhitespace).splitOnP
    Char.isWhitespace).filter fun w => decide (w ≠ [])).map String.mk

/-! ## Lemmas about the ranking step -/

theorem insertScored_perm (x : ℕ × ℝ) (l : List (ℕ × ℝ)) :
    (insertScored x l).Perm (x :: l) := by
  induction l with
  | nil => simp [insertScored]
  | cons y ys ih =>
    rw [insertScored]
    split
    · exact List.Perm.refl _
    · exact (List.Perm.cons y ih).trans (List.Perm.swap x y ys)

theorem sortDesc_perm (l : List (ℕ × ℝ)) : (sortDesc l).Perm l := by
  induction l with
  | nil => simp [sortDesc]
  | cons x xs ih =>
    exact (insertScored_perm x (sortDesc xs)).trans (List.Perm.cons x ih)

theorem insertScored_pairwise (x : ℕ × ℝ) (l : List (ℕ × ℝ))
    (hidx : ∀ y ∈ l, x.1 < y.1) (hl : l.Pairwise ScoreOrder) :
    (insertScored x l).Pairwise ScoreOrder := by
  induction l with
  | nil => simp [insertScored, List.pairwise_singleton]
  | cons y ys ih =>
    rw [insertScored]
    rcases List.pairwise_cons.1 hl with ⟨hy, hys⟩
    split
    · rename_i hle
      refine List.pairwise_cons.2 ⟨?_, hl⟩
      intro z hz
      rcases List.mem_cons.1 hz with rfl | hz
      · rcases lt_or_eq_of_le hle with hlt | heq
        · exact Or.inl hlt
        · exact Or.inr ⟨heq.symm, hidx z (List.mem_cons_self z ys)⟩
      · rcases hy z hz with hlt | ⟨heq, _⟩
        · exact Or.inl (lt_of_lt_of_le hlt hle)
        · rcases lt_or_eq_of_le (heq ▸ hle) with hlt | heq'
          · exact Or.inl hlt
          · exact Or.inr ⟨heq'.symm, hidx z (List.mem_cons_of_mem y hz)⟩
    · rename_i hnle
      refine List.pairwise_cons.2 ⟨?_, ?_⟩
      · intro z hz
        rcases List.mem_cons.1 ((insertScored_perm x ys).mem_iff.1 hz) with rfl | hz
        · exact Or.inl (lt_of_not_le hnle)
        · exact hy z hz
      · exact ih (fun z hz => hidx z (List.mem_cons_of_mem y hz)) hys

theorem sortDesc_pairwise (l : List (ℕ × ℝ))
    (h : l.Pairwise fun a b => a.1 < b.1) : (sortDesc l).Pairwise ScoreOrder := by
  induction l with
  | nil => simp [sortDesc]
  | cons x xs ih =>
    rw [sortDesc]
    rcases List.pairwise_cons.1 h with ⟨hx, hxs⟩
    exact insertScored_pairwise x (sortDesc xs)
      (fun y hy => hx y ((sortDesc_perm xs).mem_iff.1 hy)) (ih hxs)

/-- Ranking a list of `(i, f i)` pairs built over `List.range n` yields a
sequence sorted by descending score with ascending-index tie-break. -/
theorem sortDesc_rangeMap_pairwise (f : ℕ → ℝ) (n : ℕ) :
    (sortDesc ((List.range n).map fun i => (i, f i))).Pairwise ScoreOrder := by
  refine sortDesc_pairwise _ ?_
  refine List.Pairwise.map _ (fun a b hab => ?_) (List.pairwise_lt_range n)
  simpa using hab

/-! ## Inversion and evaluation of `calculate_bm25` -/

theorem calculate_bm25_eq_some (documents : List String) (query : String)
    (k1 b : ℝ) (h : documents ≠ [])
    (h2 : ¬ bm25Crash (documents.map preprocess) (preprocess query) k1 b) :
    calculate_bm25 documents query k1 b =
      some (sortDesc ((List.range documents.length).map fun i =>
        (i, bm25ScoreAt (documents.map preprocess) (preprocess query) k1 b i))) := by
  rw [calculate_bm25, if_neg h, if_neg h2]

theorem calculate_bm25_some_inv {documents : List String} {query : String}
    {k1 b : ℝ} {res : List (ℕ × ℝ)}
    (h : calculate_bm25 documents query k1 b = some res) :
    documents ≠ [] ∧
      ¬ bm25Crash (documents.map preprocess) (preprocess query) k1 b ∧
      res = sortDesc ((List.range documents.length).map fun i =>
        (i, bm25ScoreAt (documents.map preprocess) (preprocess query) k1 b i)) := by
  rw [calculate_bm25] at h
  split at h
  · exact absurd h (by simp)
  · split at h
    · exact absurd h (by simp)
    · rename_i h1 h2
      exact ⟨h1, h2, (Option.some.inj h).symm⟩

/-! ## The scanner `splitWords` agrees with the library splitter -/

theorem modifyHead_nil_append (r : List (List Char)) :
    r.modifyHead (fun x => ([] : List Char) ++ x) = r := by
  cases r <;> simp

theorem modifyHead_fun_id (r : List (List Char)) :
    r.modifyHead (fun x => x) = r := by
  cases r <;> simp

theorem splitWords_eq_splitOnP (l acc : List Char) :
    splitWords l acc =
      ((l.splitOnP Char.isWhitespace).modifyHead (acc.reverse ++ ·)).filter
        (fun w => decide (w ≠ [])) := by
  induction l generalizing acc with
  | nil =>
    rw [splitWords, List.splitOnP_nil]
    by_cases h : acc = []
    · subst h; simp
    · simp [h, List.filter_cons]
  | cons c cs ih =>
    rw [splitWords, List.splitOnP_cons]
    by_cases hws : c.isWhitespace
    · rw [if_pos hws, if_pos hws]
      have hmod : (List.modifyHead (acc.reverse ++ ·) ([] :: cs.splitOnP Char.isWhitespace)) =
          acc.reverse :: cs.splitOnP Char.isWhitespace := by
        simp
      by_cases h : acc = []
      · subst h
        rw [if_pos rfl, ih [], hmod]
        simp [List.filter_cons, modifyHead_nil_append, modifyHead_fun_id]
      · rw [if_neg h, ih [], hmod]
        have hrev : acc.reverse ≠ [] := by simpa using h
        simp [List.filter_cons, hrev, modifyHead_nil_append, modifyHead_fun_id]
    · rw [if_neg hws, if_neg hws, ih (c :: acc), List.modifyHead_modifyHead]
      have hfun : ((c :: acc).reverse ++ ·) = ((acc.reverse ++ ·) ∘ (c :: ·)) := by
        funext x
        simp
      rw [hfun]

/-! ## Arithmetic facts about the BM25 formulas -/

theorem docFreq_eq_zero_iff (processed : List (List Token)) (t : Token) :
    docFreq processed t = 0 ↔ ¬ ∃ d ∈ processed, t ∈ d := by
  rw [docFreq, List.countP_eq_zero]
  simp

theorem docFreq_le_length (processed : List (List Token)) (t : Token) :
    docFreq processed t ≤ processed.length :=
  List.countP_le_length _

theorem avgDocLen_nonneg (processed : List (List Token)) : 0 ≤ avgDocLen processed := by
  rw [avgDocLen]
  positivity

theorem bm25IDF_nonneg {N df : ℕ} (h : df ≤ N) : 0 ≤ bm25IDF N df := by
  rw [bm25IDF]
  refine Real.log_nonneg ?_
  have h1 : (0 : ℝ) ≤ (N : ℝ) - (df : ℝ) + 0.5 := by
    have : (df : ℝ) ≤ (N : ℝ) := Nat.cast_le.2 h
    linarith
  have h2 : (0 : ℝ) < (df : ℝ) + 0.5 := by positivity
  have := div_nonneg h1 h2.le
  linarith

theorem bm25TF_nonneg {k1 b avg : ℝ} (tf len : ℕ)
    (hk1 : 0 ≤ k1) (hb0 : 0 ≤ b) (hb1 : b ≤ 1) (havg : 0 ≤ avg) :
    0 ≤ bm25TF k1 b tf len avg := by
  rw [bm25TF]
  have hlen : (0 : ℝ) ≤ b * (len : ℝ) / avg := by positivity
  refine div_nonneg (by positivity) ?_
  have : (0 : ℝ) ≤ 1 - b + b * (len : ℝ) / avg := by linarith
  positivity

theorem bm25TF_mono {k1 b avg : ℝ} {tf1 tf2 : ℕ} (len : ℕ)
    (hk1 : 0 ≤ k1) (hb0 : 0 ≤ b) (hb1 : b ≤ 1) (havg : 0 ≤ avg)
    (htf : tf1 ≤ tf2) :
    bm25TF k1 b tf1 len avg ≤ bm25TF k1 b tf2 len avg := by
  rw [bm25TF, bm25TF]
  set c : ℝ := k1 * (1 - b + b * (len : ℝ) / avg) with hc
  have hcnn : 0 ≤ c := by
    have hlen : (0 : ℝ) ≤ b * (len : ℝ) / avg := by positivity
    have : (0 : ℝ) ≤ 1 - b + b * (len : ℝ) / avg := by linarith
    positivity
  have htfR : (tf1 : ℝ) ≤ (tf2 : ℝ) := Nat.cast_le.2 htf
  rcases Nat.eq_zero_or_pos tf1 with h0 | hpos
  · subst h0
    simp only [Nat.cast_zero, zero_mul, zero_div]
    refine div_nonneg (by positivity) (by positivity)
  · have h1 : (0 : ℝ) < (tf1 : ℝ) + c := by
      have : (0 : ℝ) < (tf1 : ℝ) := by exact_mod_cast hpos
      linarith
    have h2 : (0 : ℝ) < (tf2 : ℝ) + c := by
      have : (0 : ℝ) < (tf1 : ℝ) := by exact_mod_cast hpos
      linarith
    rw [div_le_div_iff₀ h1 h2]
    have hk1' : (0 : ℝ) ≤ k1 + 1 := by linarith
    nlinarith [mul_nonneg (mul_nonneg hk1' hcnn) (sub_nonneg.2 htfR)]

/-! ## Concrete evaluation helpers -/

theorem preprocess_fox : preprocess ("fox") = ["fox"] := by decide

theorem map_preprocess_fox : (["fox"] : List String).map preprocess = [["fox"]] := by decide

theorem avgDocLen_fox : avgDocLen [["fox"]] = 1 := by
  rw [avgDocLen]
  norm_num

/-! ## Claim C2 — behaviour on an empty collection -/

/-- C2 counterexample: on the empty collection, `calculate_tf_idf_manual`
does not fail at all — it returns the empty result list, contradicting the
claim that both scorers fail before returning any result. -/
theorem tfidf_empty_returns_list : calculate_tf_idf_manual [] ("fox") = [] := by
  rw [calculate_tf_idf_manual]
  simp [sortDesc]

/-- C2 (amended): on an empty collection `calculate_bm25` fails — with an
unguarded `ZeroDivisionError` from `sum(doc_lengths) / len(doc_lengths)`,
not with a dedicated error type — before returning any result, while
`calculate_tf_idf_manual` does not fail and returns the empty list. -/
theorem empty_collection_behavior (query : String) (k1 b : ℝ) :
    calculate_bm25 [] query k1 b = none ∧ calculate_tf_idf_manual [] query = [] := by
  constructor
  · rw [calculate_bm25, if_pos rfl]
  · rw [calculate_tf_idf_manual]
    simp [sortDesc]

/-! ## Claim C5 — the zero-norm guard of the manual TF-IDF scorer -/

/-- C5: inside `calculate_tf_idf_manual`, whenever the query vector's norm
or the document vector's norm is zero, the document's cosine similarity is
defined to be `0`; the division is guarded and never performed with a zero
denominator. -/
theorem cosine_zero_norm_guard (processed : List (List Token)) (q d : List Token)
    (h : vecMag processed q = 0 ∨ vecMag processed d = 0) :
    cosineSim processed q d = 0 := by
  rw [cosineSim, if_neg]
  rintro ⟨hq, hd⟩
  rcases h with h | h
  · rw [h] at hq
    exact lt_irrefl 0 hq
  · rw [h] at hd
    exact lt_irrefl 0 hd

theorem cosine_zero_norm_guard_witness :
    vecMag [["fox"]] [] = 0 ∧ cosineSim [["fox"]] [] ["fox"] = 0 := by
  have h : vecMag [["fox"]] ([] : List Token) = 0 := by
    rw [vecMag]
    simp
  exact ⟨h, cosine_zero_norm_guard _ _ _ (Or.inl h)⟩

/-! ## Claim C7 — the tokenizer -/

/-- C7 counterexample: `preprocess` keeps the underscore (Python `\w`
includes `_`), while the claim's tokenizer — remove every character that
is neither alphanumeric nor whitespace — would delete it. -/
theorem preprocess_keeps_underscore :
    preprocess ("a_b") = ["a_b"] ∧ tokenizerClaimC7 ("a_b") = ["ab"] ∧
      preprocess ("a_b") ≠ tokenizerClaimC7 ("a_b") :=
  ⟨by decide, by decide, by decide⟩

/-- C7 (amended): for every input string the tokenizer lower-cases it,
removes every character that is not a word character (alphanumeric or
underscore) and not whitespace, and splits on whitespace runs; the empty
string yields the empty sequence, and the function is total. -/
theorem preprocess_spec_characterization :
    (∀ s : String, preprocess s = tokenizerSpec s) ∧ preprocess ("") = [] := by
  constructor
  · intro s
    rw [preprocess, tokenizerSpec, splitWords_eq_splitOnP]
    simp [modifyHead_fun_id]
  · decide

/-! ## Claim C8 — k1 = 0 saturation, b = 0 length-invariance -/

/-- C8: with `k1 = 0` the term-frequency component equals `1` both at
`tf = 1` and at `tf = 100` (full saturation after the first occurrence);
with `b = 0` a document's whole BM25 score depends only on its term
frequencies for the query terms, not on its length. -/
theorem bm25_saturation_and_length_invariance :
    (∀ (b avg : ℝ) (len : ℕ), bm25TF 0 b 1 len avg = 1 ∧ bm25TF 0 b 100 len avg = 1) ∧
      (∀ (processed : List (List Token)) (q : List Token) (k1 : ℝ) (i j : ℕ),
        (∀ t ∈ q, (processed.getD i []).count t = (processed.getD j []).count t) →
        bm25ScoreAt processed q k1 0 i = bm25ScoreAt processed q k1 0 j) := by
  constructor
  · intro b avg len
    constructor <;> (rw [bm25TF]; norm_num)
  · intro processed q k1 i j hcount
    rw [bm25ScoreAt, bm25ScoreAt]
    congr 1
    refine List.map_congr_left fun t ht => ?_
    by_cases hv : ∃ d ∈ processed, t ∈ d
    · rw [if_pos hv, if_pos hv, hcount t ht, bm25TF, bm25TF]
      norm_num
    · rw [if_neg hv, if_neg hv]

theorem bm25_saturation_witness :
    bm25TF 0 0.75 1 5 2 = 1 ∧
      bm25ScoreAt [["fox"], ["fox", "dog"]] ["fox"] 1.5 0 0 =
        bm25ScoreAt [["fox"], ["fox", "dog"]] ["fox"] 1.5 0 1 :=
  ⟨(bm25_saturation_and_length_invariance.1 0.75 2 5).1,
    bm25_saturation_and_length_invariance.2 _ _ 1.5 0 1 (by decide)⟩

/-! ## Claim C4 — monotonicity in raw term frequency -/

/-- C4 (amended): each query term's contribution to a document's BM25
score — `idf × tf_component`, with the collection statistics held fixed —
is non-decreasing in the raw term frequency whenever `k1 ≥ 0` and
`b ∈ [0,1]`; hence the BM25 score never decreases.  (The TF-IDF half of
the original claim is false, see the counterexample.) -/
theorem bm25_contribution_monotone_in_tf (N df : ℕ) (k1 b avg : ℝ) (len tf1 tf2 : ℕ)
    (hdf : df ≤ N) (hk1 : 0 ≤ k1) (hb0 : 0 ≤ b) (hb1 : b ≤ 1) (havg : 0 ≤ avg)
    (htf : tf1 ≤ tf2) :
    bm25IDF N df * bm25TF k1 b tf1 len avg ≤ bm25IDF N df * bm25TF k1 b tf2 len avg :=
  mul_le_mul_of_nonneg_left (bm25TF_mono len hk1 hb0 hb1 havg htf) (bm25IDF_nonneg hdf)

theorem bm25_contribution_monotone_in_tf_witness :
    (1 : ℕ) ≤ 2 ∧
      bm25IDF 2 1 * bm25TF 1.5 0.75 1 1 1 ≤ bm25IDF 2 1 * bm25TF 1.5 0.75 2 1 1 :=
  ⟨by norm_num,
    bm25_contribution_monotone_in_tf 2 1 1.5 0.75 1 1 1 2 (by norm_num) (by norm_num)
      (by norm_num) (by norm_num) (by norm_num) (by norm_num)⟩

/-! ## Claim C6 — no parameter validation in `calculate_bm25` -/

/-- C6 counterexample: with `k1 = -0.5` (negative) and `b = 2` (outside
`[0,1]`), `calculate_bm25` does not fail at all: it happily computes and
returns a ranked result. -/
theorem bm25_accepts_invalid_parameters :
    (calculate_bm25 ["fox"] ("fox") (-0.5) 2).isSome = true := by
  rw [calculate_bm25_eq_some _ _ _ _ (by simp) ?h]
  · rfl
  case h =>
    rw [map_preprocess_fox, preprocess_fox]
    rintro ⟨d, hd, t, ht, -, heq⟩
    simp only [List.mem_singleton] at hd ht
    subst hd
    subst ht
    rw [avgDocLen_fox] at heq
    norm_num at heq

/-- C6 (amended): `calculate_bm25` performs no validation of `k1` or `b`:
for every `k1` and every `b` — including negative `k1` and `b` outside
`[0,1]` — for which no scoring denominator vanishes, the call returns a
ranked result instead of failing. -/
theorem bm25_no_parameter_validation (k1 b : ℝ)
    (h : ¬ bm25Crash (["fox"].map preprocess) (preprocess ("fox")) k1 b) :
    (calculate_bm25 ["fox"] ("fox") k1 b).isSome = true := by
  rw [calculate_bm25_eq_some _ _ _ _ (by simp) h]
  rfl

theorem bm25_no_parameter_validation_witness :
    (calculate_bm25 ["fox"] ("fox") (-0.5) 2).isSome = true := by
  refine bm25_no_parameter_validation (-0.5) 2 ?_
  rw [map_preprocess_fox, preprocess_fox]
  rintro ⟨d, hd, t, ht, -, heq⟩
  simp only [List.mem_singleton] at hd ht
  subst hd
  subst ht
  rw [avgDocLen_fox] at heq
  norm_num at heq

/-! ## More evaluation helpers -/

/-- With `k1 > 0` and `b < 1` every BM25 denominator is strictly positive,
so no `ZeroDivisionError` can occur. -/
theorem bm25Crash_not_of_blt1 (processed : List (List Token)) (q : List Token)
    {k1 b : ℝ} (hk1 : 0 < k1) (hb0 : 0 ≤ b) (hb1 : b < 1) :
    ¬ bm25Crash processed q k1 b := by
  rintro ⟨d, -, t, -, -, heq⟩
  have havg : 0 ≤ avgDocLen processed := avgDocLen_nonneg _
  have h1 : (0 : ℝ) ≤ b * (d.length : ℝ) / avgDocLen processed := by positivity
  have h2 : (0 : ℝ) ≤ (d.count t : ℝ) := Nat.cast_nonneg _
  nlinarith [mul_pos hk1 (show (0 : ℝ) < 1 - b + b * (d.length : ℝ) / avgDocLen processed by
    linarith)]

theorem bm25ScoreAt_fox : bm25ScoreAt [["fox"]] ["fox"] 1.5 0.75 0 = Real.log (4 / 3) := by
  have hv : ∃ d ∈ ([["fox"]] : List (List Token)), ("fox" : Token) ∈ d :=
    ⟨["fox"], by simp, by simp⟩
  have h1 : docFreq [["fox"]] ("fox") = 1 := by decide
  have h2 : (([["fox"]] : List (List Token)).getD 0 []).count ("fox") = 1 := by decide
  have h3 : (([["fox"]] : List (List Token)).getD 0 []).length = 1 := by decide
  rw [bm25ScoreAt]
  simp only [List.map_cons, List.map_nil, List.sum_cons, List.sum_nil, if_pos hv]
  rw [h1, h2, h3, avgDocLen_fox, bm25IDF, bm25TF]
  norm_num

theorem bm25_single_eval :
    calculate_bm25 ["fox"] ("fox") 1.5 0.75 = some [(0, Real.log (4 / 3))] := by
  rw [calculate_bm25_eq_some _ _ _ _ (by simp)
    (bm25Crash_not_of_blt1 _ _ (by norm_num) (by norm_num) (by norm_num))]
  rw [show List.range (["fox"] : List String).length = [0] from rfl]
  rw [List.map_cons, List.map_nil, map_preprocess_fox, preprocess_fox]
  rw [sortDesc, sortDesc, insertScored, bm25ScoreAt_fox]

/-! ## Claim C10 — non-negativity of BM25 scores -/

/-- C10: with `k1 ≥ 0` and `b ∈ [0,1]`, every score in a list returned by
`calculate_bm25` is non-negative: each per-term contribution is a product
of a non-negative IDF (the logarithm's argument is at least 1 because
`df ≤ N`) and a non-negative term-frequency component. -/
theorem bm25_scores_nonneg (documents : List String) (query : String) (k1 b : ℝ)
    (res : List (ℕ × ℝ)) (hk1 : 0 ≤ k1) (hb0 : 0 ≤ b) (hb1 : b ≤ 1)
    (h : calculate_bm25 documents query k1 b = some res) :
    ∀ p ∈ res, 0 ≤ p.2 := by
  obtain ⟨-, -, rfl⟩ := calculate_bm25_some_inv h
  intro p hp
  rcases List.mem_map.1 ((sortDesc_perm _).mem_iff.1 hp) with ⟨i, -, rfl⟩
  rw [bm25ScoreAt]
  refine List.sum_nonneg fun x hx => ?_
  rcases List.mem_map.1 hx with ⟨t, -, rfl⟩
  by_cases hv : ∃ d ∈ documents.map preprocess, t ∈ d
  · rw [if_pos hv]
    exact mul_nonneg (bm25IDF_nonneg (docFreq_le_length _ _))
      (bm25TF_nonneg _ _ hk1 hb0 hb1 (avgDocLen_nonneg _))
  · rw [if_neg hv]

theorem bm25_scores_nonneg_witness :
    calculate_bm25 ["fox"] ("fox") 1.5 0.75 = some [(0, Real.log (4 / 3))] ∧
      ∀ p ∈ [((0 : ℕ), Real.log ((4 : ℝ) / 3))], 0 ≤ p.2 :=
  ⟨bm25_single_eval,
    bm25_scores_nonneg _ _ _ _ _ (by norm_num) (by norm_num) (by norm_num) bm25_single_eval⟩

/-! ## Claim C3 — descending scores, ascending-index tie-break -/

/-- C3: every result list produced by `calculate_bm25`, and the result of
`calculate_tf_idf_manual`, is sorted by strictly descending score except
that equal scores appear in ascending document-index order (`ScoreOrder`
holds pairwise): the unsorted lists carry strictly increasing indices and
the sort is stable. -/
theorem ranking_sorted_desc_tiebreak_asc (documents : List String) (query : String)
    (k1 b : ℝ) (res : List (ℕ × ℝ))
    (h : calculate_bm25 documents query k1 b = some res) :
    res.Pairwise ScoreOrder ∧
      (calculate_tf_idf_manual documents query).Pairwise ScoreOrder := by
  obtain ⟨-, -, rfl⟩ := calculate_bm25_some_inv h
  constructor
  · exact sortDesc_rangeMap_pairwise _ _
  · rw [calculate_tf_idf_manual]
    exact sortDesc_rangeMap_pairwise _ _

theorem ranking_sorted_desc_tiebreak_asc_witness :
    calculate_bm25 ["fox"] ("fox") 1.5 0.75 = some [(0, Real.log (4 / 3))] ∧
      [((0 : ℕ), Real.log ((4 : ℝ) / 3))].Pairwise ScoreOrder ∧
      (calculate_tf_idf_manual ["fox"] ("fox")).Pairwise ScoreOrder :=
  ⟨bm25_single_eval, ranking_sorted_desc_tiebreak_asc _ _ _ _ _ bm25_single_eval⟩

/-! ## Claim C1 — the BM25 score matches the spec's formula -/

/-- C1: a successful `calculate_bm25` call returns exactly the pairs
`(i, S_i)` (up to the ranking permutation) where `S_i` is the spec's BM25
sum over the query's token occurrences, with `df(t) = 0` terms skipped. -/
theorem bm25_scores_match_spec_formula (documents : List String) (query : String)
    (k1 b : ℝ) (res : List (ℕ × ℝ))
    (h : calculate_bm25 documents query k1 b = some res) :
    res.Perm ((List.range documents.length).map fun i =>
      (i, bm25SpecScore documents query k1 b i)) := by
  obtain ⟨-, -, rfl⟩ := calculate_bm25_some_inv h
  refine (sortDesc_perm _).trans (List.Perm.of_eq ?_)
  refine List.map_congr_left fun i _ => ?_
  have hsum : bm25ScoreAt (documents.map preprocess) (preprocess query) k1 b i =
      bm25SpecScore documents query k1 b i := by
    rw [bm25ScoreAt, bm25SpecScore]
    congr 1
    refine List.map_congr_left fun t _ => ?_
    by_cases hv : ∃ d ∈ documents.map preprocess, t ∈ d
    · rw [if_pos hv, if_neg (fun h0 => (docFreq_eq_zero_iff _ _).1 h0 hv)]
      rw [bm25IDF, bm25TF, List.length_map]
    · rw [if_neg hv, if_pos ((docFreq_eq_zero_iff _ _).2 hv)]
  rw [hsum]

theorem bm25_scores_match_spec_formula_witness :
    calculate_bm25 ["fox"] ("fox") 1.5 0.75 = some [(0, Real.log (4 / 3))] ∧
      [((0 : ℕ), Real.log ((4 : ℝ) / 3))].Perm ((List.range 1).map fun i =>
        (i, bm25SpecScore ["fox"] ("fox") 1.5 0.75 i)) :=
  ⟨bm25_single_eval, bm25_scores_match_spec_formula _ _ _ _ _ bm25_single_eval⟩

/-! ## Claim C9 — the concrete three-document ranking -/

theorem map_preprocess_three :
    (["fox", "fox dog", "fox dog quick"] : List String).map preprocess =
      [["fox"], ["fox", "dog"], ["fox", "dog", "quick"]] := by decide

theorem preprocess_foxdog : preprocess ("fox dog") = ["fox", "dog"] := by decide

theorem avgDocLen_three :
    avgDocLen [["fox"], ["fox", "dog"], ["fox", "dog", "quick"]] = 2 := by
  rw [avgDocLen]
  norm_num

theorem bm25ScoreAt_three_0 :
    bm25ScoreAt [["fox"], ["fox", "dog"], ["fox", "dog", "quick"]] ["fox", "dog"]
      1.5 0.75 0 = Real.log (8 / 7) * (40 / 31) := by
  have hvf : ∃ d ∈ ([["fox"], ["fox", "dog"], ["fox", "dog", "quick"]] :
      List (List Token)), ("fox" : Token) ∈ d := ⟨["fox"], by simp, by simp⟩
  have hvd : ∃ d ∈ ([["fox"], ["fox", "dog"], ["fox", "dog", "quick"]] :
      List (List Token)), ("dog" : Token) ∈ d := ⟨["fox", "dog"], by simp, by simp⟩
  have hdf : docFreq [["fox"], ["fox", "dog"], ["fox", "dog", "quick"]] ("fox") = 3 := by
    decide
  have hdd : docFreq [["fox"], ["fox", "dog"], ["fox", "dog", "quick"]] ("dog") = 2 := by
    decide
  have hcf : (([["fox"], ["fox", "dog"], ["fox", "dog", "quick"]] :
      List (List Token)).getD 0 []).count ("fox") = 1 := by decide
  have hcd : (([["fox"], ["fox", "dog"], ["fox", "dog", "quick"]] :
      List (List Token)).getD 0 []).count ("dog") = 0 := by decide
  have hl : (([["fox"], ["fox", "dog"], ["fox", "dog", "quick"]] :
      List (List Token)).getD 0 []).length = 1 := by decide
  rw [bm25ScoreAt]
  simp only [List.map_cons, List.map_nil, List.sum_cons, List.sum_nil,
    List.length_cons, List.length_nil, if_pos hvf, if_pos hvd]
  rw [hdf, hdd, hcf, hcd, hl, avgDocLen_three]
  simp only [bm25IDF, bm25TF]
  norm_num

theorem bm25ScoreAt_three_1 :
    bm25ScoreAt [["fox"], ["fox", "dog"], ["fox", "dog", "quick"]] ["fox", "dog"]
      1.5 0.75 1 = Real.log (8 / 7) + Real.log (8 / 5) := by
  have hvf : ∃ d ∈ ([["fox"], ["fox", "dog"], ["fox", "dog", "quick"]] :
      List (List Token)), ("fox" : Token) ∈ d := ⟨["fox"], by simp, by simp⟩
  have hvd : ∃ d ∈ ([["fox"], ["fox", "dog"], ["fox", "dog", "quick"]] :
      List (List Token)), ("dog" : Token) ∈ d := ⟨["fox", "dog"], by simp, by simp⟩
  have hdf : docFreq [["fox"], ["fox", "dog"], ["fox", "dog", "quick"]] ("fox") = 3 := by
    decide
  have hdd : docFreq [["fox"], ["fox", "dog"], ["fox", "dog", "quick"]] ("dog") = 2 := by
    decide
  have hcf : (([["fox"], ["fox", "dog"], ["fox", "dog", "quick"]] :
      List (List Token)).getD 1 []).count ("fox") = 1 := by decide
  have hcd : (([["fox"], ["fox", "dog"], ["fox", "dog", "quick"]] :
      List (List Token)).getD 1 []).count ("dog") = 1 := by decide
  have hl : (([["fox"], ["fox", "dog"], ["fox", "dog", "quick"]] :
      List (List Token)).getD 1 []).length = 2 := by decide
  rw [bm25ScoreAt]
  simp only [List.map_cons, List.map_nil, List.sum_cons, List.sum_nil,
    List.length_cons, List.length_nil, if_pos hvf, if_pos hvd]
  rw [hdf, hdd, hcf, hcd, hl, avgDocLen_three]
  simp only [bm25IDF, bm25TF]
  norm_num

theorem bm25ScoreAt_three_2 :
    bm25ScoreAt [["fox"], ["fox", "dog"], ["fox", "dog", "quick"]] ["fox", "dog"]
      1.5 0.75 2 = Real.log (8 / 7) * (40 / 49) + Real.log (8 / 5) * (40 / 49) := by
  have hvf : ∃ d ∈ ([["fox"], ["fox", "dog"], ["fox", "dog", "quick"]] :
      List (List Token)), ("fox" : Token) ∈ d := ⟨["fox"], by simp, by simp⟩
  have hvd : ∃ d ∈ ([["fox"], ["fox", "dog"], ["fox", "dog", "quick"]] :
      List (List Token)), ("dog" : Token) ∈ d := ⟨["fox", "dog"], by simp, by simp⟩
  have hdf : docFreq [["fox"], ["fox", "dog"], ["fox", "dog", "quick"]] ("fox") = 3 := by
    decide
  have hdd : docFreq [["fox"], ["fox", "dog"], ["fox", "dog", "quick"]] ("dog") = 2 := by
    decide
  have hcf : (([["fox"], ["fox", "dog"], ["fox", "dog", "quick"]] :
      List (List Token)).getD 2 []).count ("fox") = 1 := by decide
  have hcd : (([["fox"], ["fox", "dog"], ["fox", "dog", "quick"]] :
      List (List Token)).getD 2 []).count ("dog") = 1 := by decide
  have hl : (([["fox"], ["fox", "dog"], ["fox", "dog", "quick"]] :
      List (List Token)).getD 2 []).length = 3 := by decide
  rw [bm25ScoreAt]
  simp only [List.map_cons, List.map_nil, List.sum_cons, List.sum_nil,
    List.length_cons, List.length_nil, if_pos hvf, if_pos hvd]
  rw [hdf, hdd, hcf, hcd, hl, avgDocLen_three]
  simp only [bm25IDF, bm25TF]
  norm_num

/-- C9: on the collection `["fox", "fox dog", "fox dog quick"]` with query
`"fox dog"`, `k1 = 1.5`, `b = 0.75`, `calculate_bm25` succeeds and its
scores satisfy `score(doc 1) ≥ score(doc 2) ≥ score(doc 0)`. -/
theorem bm25_concrete_ranking :
    calculate_bm25 ["fox", "fox dog", "fox dog quick"] ("fox dog") 1.5 0.75 =
      some (sortDesc ((List.range 3).map fun i =>
        (i, bm25ScoreAt ((["fox", "fox dog", "fox dog quick"] : List String).map preprocess)
          (preprocess ("fox dog")) 1.5 0.75 i))) ∧
      bm25ScoreAt ((["fox", "fox dog", "fox dog quick"] : List String).map preprocess)
          (preprocess ("fox dog")) 1.5 0.75 2 ≤
        bm25ScoreAt ((["fox", "fox dog", "fox dog quick"] : List String).map preprocess)
          (preprocess ("fox dog")) 1.5 0.75 1 ∧
      bm25ScoreAt ((["fox", "fox dog", "fox dog quick"] : List String).map preprocess)
          (preprocess ("fox dog")) 1.5 0.75 0 ≤
        bm25ScoreAt ((["fox", "fox dog", "fox dog quick"] : List String).map preprocess)
          (preprocess ("fox dog")) 1.5 0.75 2 := by
  refine ⟨?_, ?_, ?_⟩
  · rw [calculate_bm25_eq_some _ _ _ _ (by simp)
      (bm25Crash_not_of_blt1 _ _ (by norm_num) (by norm_num) (by norm_num))]
    norm_num
  · rw [map_preprocess_three, preprocess_foxdog, bm25ScoreAt_three_2, bm25ScoreAt_three_1]
    have hL7 : 0 ≤ Real.log (8 / 7) := Real.log_nonneg (by norm_num)
    have hL5 : 0 ≤ Real.log (8 / 5) := Real.log_nonneg (by norm_num)
    linarith
  · rw [map_preprocess_three, preprocess_foxdog, bm25ScoreAt_three_0, bm25ScoreAt_three_2]
    have hL7 : 0 ≤ Real.log (8 / 7) := Real.log_nonneg (by norm_num)
    have key : Real.log ((8 / 7 : ℝ) ^ (2 : ℕ)) ≤ Real.log (8 / 5) :=
      Real.log_le_log (by positivity) (by norm_num)
    rw [Real.log_pow] at key
    push_cast at key
    linarith

/-! ## Claim C4 counterexample — TF-IDF cosine is not monotone in tf -/

theorem idf_base_a : idfOrZero [["a", "t"], ["z"]] ("a") = Real.log 2 := by
  rw [idfOrZero, if_pos ⟨["a", "t"], by simp, by simp⟩,
    show docFreq [["a", "t"], ["z"]] ("a") = 1 from by decide]
  norm_num

theorem idf_base_t : idfOrZero [["a", "t"], ["z"]] ("t") = Real.log 2 := by
  rw [idfOrZero, if_pos ⟨["a", "t"], by simp, by simp⟩,
    show docFreq [["a", "t"], ["z"]] ("t") = 1 from by decide]
  norm_num

theorem idf_boost_a : idfOrZero [["a", "t", "t", "t"], ["z"]] ("a") = Real.log 2 := by
  rw [idfOrZero, if_pos ⟨["a", "t", "t", "t"], by simp, by simp⟩,
    show docFreq [["a", "t", "t", "t"], ["z"]] ("a") = 1 from by decide]
  norm_num

theorem idf_boost_t : idfOrZero [["a", "t", "t", "t"], ["z"]] ("t") = Real.log 2 := by
  rw [idfOrZero, if_pos ⟨["a", "t", "t", "t"], by simp, by simp⟩,
    show docFreq [["a", "t", "t", "t"], ["z"]] ("t") = 1 from by decide]
  norm_num

theorem cosineSim_base :
    cosineSim [["a", "t"], ["z"]] ["a", "t"] ["a", "t"] = 1 := by
  have hL : 0 < Real.log 2 := Real.log_pos (by norm_num)
  have hwa : tfidfWeight [["a", "t"], ["z"]] ["a", "t"] ("a") = Real.log 2 := by
    rw [tfidfWeight, idf_base_a, show (["a", "t"] : List Token).count ("a") = 1 from by decide]
    norm_num
  have hwt : tfidfWeight [["a", "t"], ["z"]] ["a", "t"] ("t") = Real.log 2 := by
    rw [tfidfWeight, idf_base_t, show (["a", "t"] : List Token).count ("t") = 1 from by decide]
    norm_num
  have hmag : vecMag [["a", "t"], ["z"]] ["a", "t"] = Real.sqrt (2 * Real.log 2 ^ 2) := by
    rw [vecMag, show (["a", "t"] : List Token).dedup = ["a", "t"] from by decide]
    simp only [List.map_cons, List.map_nil, List.sum_cons, List.sum_nil]
    rw [hwa, hwt]
    ring_nf
  have hdot : dotProd [["a", "t"], ["z"]] ["a", "t"] ["a", "t"] = 2 * Real.log 2 ^ 2 := by
    rw [dotProd, show ((["a", "t"] : List Token).dedup.filter fun t =>
      decide (t ∈ (["a", "t"] : List Token))) = ["a", "t"] from by decide]
    simp only [List.map_cons, List.map_nil, List.sum_cons, List.sum_nil]
    rw [hwa, hwt]
    ring
  have harg : (0 : ℝ) < 2 * Real.log 2 ^ 2 := by nlinarith
  have hpos : 0 < Real.sqrt (2 * Real.log 2 ^ 2) := Real.sqrt_pos.2 harg
  rw [cosineSim, if_pos ⟨by rw [hmag]; exact hpos, by rw [hmag]; exact hpos⟩,
    hdot, hmag, Real.mul_self_sqrt harg.le]
  exact div_self harg.ne'

theorem cosineSim_boosted :
    cosineSim [["a", "t", "t", "t"], ["z"]] ["a", "t"] ["a", "t", "t", "t"] =
      4 / (Real.sqrt 2 * Real.sqrt 10) := by
  have hL : 0 < Real.log 2 := Real.log_pos (by norm_num)
  have hqa : tfidfWeight [["a", "t", "t", "t"], ["z"]] ["a", "t"] ("a") = Real.log 2 := by
    rw [tfidfWeight, idf_boost_a,
      show (["a", "t"] : List Token).count ("a") = 1 from by decide]
    norm_num
  have hqt : tfidfWeight [["a", "t", "t", "t"], ["z"]] ["a", "t"] ("t") = Real.log 2 := by
    rw [tfidfWeight, idf_boost_t,
      show (["a", "t"] : List Token).count ("t") = 1 from by decide]
    norm_num
  have hda : tfidfWeight [["a", "t", "t", "t"], ["z"]] ["a", "t", "t", "t"] ("a") =
      Real.log 2 := by
    rw [tfidfWeight, idf_boost_a,
      show (["a", "t", "t", "t"] : List Token).count ("a") = 1 from by decide]
    norm_num
  have hdt : tfidfWeight [["a", "t", "t", "t"], ["z"]] ["a", "t", "t", "t"] ("t") =
      3 * Real.log 2 := by
    rw [tfidfWeight, idf_boost_t,
      show (["a", "t", "t", "t"] : List Token).count ("t") = 3 from by decide]
    norm_num
  have hmagq : vecMag [["a", "t", "t", "t"], ["z"]] ["a", "t"] =
      Real.sqrt (2 * Real.log 2 ^ 2) := by
    rw [vecMag, show (["a", "t"] : List Token).dedup = ["a", "t"] from by decide]
    simp only [List.map_cons, List.map_nil, List.sum_cons, List.sum_nil]
    rw [hqa, hqt]
    ring_nf
  have hmagd : vecMag [["a", "t", "t", "t"], ["z"]] ["a", "t", "t", "t"] =
      Real.sqrt (10 * Real.log 2 ^ 2) := by
    rw [vecMag, show (["a", "t", "t", "t"] : List Token).dedup = ["a", "t"] from by decide]
    simp only [List.map_cons, List.map_nil, List.sum_cons, List.sum_nil]
    rw [hda, hdt]
    ring_nf
  have hdot : dotProd [["a", "t", "t", "t"], ["z"]] ["a", "t"] ["a", "t", "t", "t"] =
      4 * Real.log 2 ^ 2 := by
    rw [dotProd, show ((["a", "t"] : List Token).dedup.filter fun t =>
      decide (t ∈ (["a", "t", "t", "t"] : List Token))) = ["a", "t"] from by decide]
    simp only [List.map_cons, List.map_nil, List.sum_cons, List.sum_nil]
    rw [hqa, hqt, hda, hdt]
    ring
  have hq2 : (0 : ℝ) < 2 * Real.log 2 ^ 2 := by nlinarith
  have hd2 : (0 : ℝ) < 10 * Real.log 2 ^ 2 := by nlinarith
  rw [cosineSim, if_pos ⟨by rw [hmagq]; exact Real.sqrt_pos.2 hq2,
    by rw [hmagd]; exact Real.sqrt_pos.2 hd2⟩, hdot, hmagq, hmagd]
  rw [show (2 : ℝ) * Real.log 2 ^ 2 = 2 * Real.log 2 ^ 2 from rfl]
  rw [Real.sqrt_mul (by norm_num : (0 : ℝ) ≤ 2) (Real.log 2 ^ 2),
    Real.sqrt_mul (by norm_num : (0 : ℝ) ≤ 10) (Real.log 2 ^ 2),
    Real.sqrt_sq hL.le]
  have hrw : Real.sqrt 2 * Real.log 2 * (Real.sqrt 10 * Real.log 2) =
      Real.sqrt 2 * Real.sqrt 10 * Real.log 2 ^ 2 := by ring
  rw [hrw, show (4 : ℝ) * Real.log 2 ^ 2 = 4 * Real.log 2 ^ 2 from rfl]
  exact mul_div_mul_right _ _ (by nlinarith)

/-- C4 counterexample: raising the raw frequency of query term `"t"` in
document 0 from 1 to 3, with document frequencies, `N` and every other
term count unchanged, strictly lowers that document's TF-IDF cosine score
(from `1` to `4/√20 ≈ 0.894`): the claim's TF-IDF half is false. -/
theorem tfidf_not_monotone_in_tf :
    docFreq ((["a t", "z"] : List String).map preprocess) ("t") = 1 ∧
      docFreq ((["a t t t", "z"] : List String).map preprocess) ("t") = 1 ∧
      (preprocess ("a t")).count ("t") = 1 ∧
      (preprocess ("a t t t")).count ("t") = 3 ∧
      cosineSim ((["a t t t", "z"] : List String).map preprocess) (preprocess ("a t"))
          (preprocess ("a t t t")) <
        cosineSim ((["a t", "z"] : List String).map preprocess) (preprocess ("a t"))
          (preprocess ("a t")) := by
  refine ⟨by decide, by decide, by decide, by decide, ?_⟩
  rw [show (["a t", "z"] : List String).map preprocess = [["a", "t"], ["z"]] from by decide,
    show (["a t t t", "z"] : List String).map preprocess =
      [["a", "t", "t", "t"], ["z"]] from by decide,
    show preprocess ("a t") = ["a", "t"] from by decide,
    show preprocess ("a t t t") = ["a", "t", "t", "t"] from by decide,
    cosineSim_base, cosineSim_boosted]
  have h20 : Real.sqrt 2 * Real.sqrt 10 = Real.sqrt 20 := by
    rw [← Real.sqrt_mul (by norm_num : (0 : ℝ) ≤ 2)]
    norm_num
  have h4 : (4 : ℝ) < Real.sqrt 20 := by
    have h16 : Real.sqrt 16 = 4 := by
      rw [show (16 : ℝ) = 4 ^ 2 from by norm_num, Real.sqrt_sq (by norm_num : (0 : ℝ) ≤ 4)]
    rw [← h16]
    exact Real.sqrt_lt_sqrt (by norm_num) (by norm_num)
  rw [h20, div_lt_one (lt_trans (by norm_num) h4)]
  exact h4

end RetrievalCore
